import Mathlib

/-!
Verification of the request-handling core of the tremor language server
(`src/backend.rs`): the document state store, the diagnostics, completion
and hover pipelines, and the lifecycle handlers.  The language capability
interface (`parse_errors`, `functions`, `function_doc`) is an external
collaborator and is modelled as a structure of functions; token extraction
and the rendering helpers live in repository modules outside the provided
sources and are modelled from the specification.
-/

namespace Tremor

/-- A zero-based (line, character) position, as used by the protocol layer. -/
structure Position where
  line : Nat
  character : Nat
deriving DecidableEq, Repr

/-- A position in the language's native coordinate system (from the
language capability's errors). -/
structure LangPosition where
  line : Nat
  column : Nat
deriving DecidableEq, Repr

/-- Severity level of a raw language error, as supplied by the language
capability. -/
inductive ErrorLevel where
  | error
  | warning
  | hint
deriving DecidableEq, Repr

/-- Protocol-side diagnostic severity. -/
inductive DiagnosticSeverity where
  | error
  | warning
  | information
  | hint
deriving DecidableEq, Repr

/-- A structured error returned by the language capability's
`parse_errors`: start/end positions, a callout message, an optional hint
and a severity level. -/
structure RawError where
  start : LangPosition
  end_ : LangPosition
  callout : String
  hint : Option String
  level : ErrorLevel
deriving DecidableEq, Repr

/-- A function signature: fully qualified name plus the ordered argument
names. -/
structure FunctionSignature where
  full_name : String
  args : List String
deriving DecidableEq, Repr

/-- Documentation for a fully qualified function: its signature and a
markdown description. -/
structure FunctionDoc where
  signature : FunctionSignature
  description : String
deriving DecidableEq, Repr

/-- The language capability interface: parse-and-check, member listing for
a namespace, and documentation lookup for a fully qualified name. -/
structure Language where
  parse_errors : String → Option (List RawError)
  functions : String → List String
  function_doc : String → Option FunctionDoc

/-- Modelled from the spec: `lsp_utils::to_lsp_position` (the `lsp_utils`
module is outside the provided sources) maps a native position into the
caller's coordinate system; the spec fixes no formula, so the coordinates
are carried over unchanged. -/
def to_lsp_position (p : LangPosition) : Position :=
  ⟨p.line, p.column⟩

/-- Modelled from the spec: `lsp_utils::to_lsp_severity` (outside the
provided sources) maps a native severity level to the protocol severity. -/
def to_lsp_severity (l : ErrorLevel) : DiagnosticSeverity :=
  match l with
  | ErrorLevel.error => DiagnosticSeverity.error
  | ErrorLevel.warning => DiagnosticSeverity.warning
  | ErrorLevel.hint => DiagnosticSeverity.hint

/-- A protocol diagnostic record, as built by `Backend::get_diagnostics`. -/
structure Diagnostic where
  range_start : Position
  range_end : Position
  message : String
  severity : Option DiagnosticSeverity
  source : Option String
deriving DecidableEq, Repr

/-- Markup kind of rendered documentation. -/
inductive MarkupKind where
  | plaintext
  | markdown
deriving DecidableEq, Repr

/-- Rendered markup content (kind plus value). -/
structure MarkupContent where
  kind : MarkupKind
  value : String
deriving DecidableEq, Repr

/-- Completion item kind (only the variant the backend uses). -/
inductive CompletionItemKind where
  | function
deriving DecidableEq, Repr

/-- Insert-text format (only the variant the backend uses). -/
inductive InsertTextFormat where
  | snippet
deriving DecidableEq, Repr

/-- A completion candidate, with the fields `Backend::get_completions`
populates; the remaining protocol fields are left at their defaults. -/
structure CompletionItem where
  label : String
  kind : Option CompletionItemKind
  detail : Option String
  documentation : Option MarkupContent
  insert_text : Option String
  insert_text_format : Option InsertTextFormat
deriving DecidableEq, Repr

/-- The latest known state of a document: its full text
(`DocumentState` in `backend.rs`). -/
structure DocumentState where
  text : String
deriving DecidableEq, Repr

/-- The document state store: a mapping from document uri to its state,
modelled as an association list with insert-or-overwrite semantics
(the `halfbrown::HashMap` of `backend.rs`). -/
abbrev State := List (String × DocumentState)

/-- Insertion into the store: overwrites the entry for the key when
present, appends otherwise (the semantics of `HashMap::insert`). -/
def State.insert (st : State) (uri : String) (d : DocumentState) : State :=
  match st with
  | [] => [(uri, d)]
  | (k, v) :: rest =>
      if k = uri then (uri, d) :: rest
      else (k, v) :: State.insert rest uri d

/-- Lookup in the store (the semantics of `HashMap::get`). -/
def State.get (st : State) (uri : String) : Option DocumentState :=
  match st with
  | [] => none
  | (k, v) :: rest => if k = uri then some v else State.get rest uri

/-- `Backend::update`: inserts or overwrites the entry for the uri with a
fresh `DocumentState` holding the given text. -/
def update (st : State) (uri : String) (text : String) : State :=
  State.insert st uri ⟨text⟩

/-- The message built for one raw error in `Backend::get_diagnostics`:
the callout, with the hint (when present) concatenated as a
comma-delimited trailing note. -/
def diag_message (e : RawError) : String :=
  match e.hint with
  | some hint => e.callout ++ ", Note: " ++ hint
  | none => e.callout

/-- `Backend::get_diagnostics`: delegates to `parse_errors` and maps each
raw error to a protocol diagnostic; no errors (or no parse attempt) gives
the empty list. -/
def get_diagnostics (lang : Language) (text : String) : List Diagnostic :=
  match lang.parse_errors text with
  | none => []
  | some errors =>
      errors.map fun e =>
        ⟨to_lsp_position e.start, to_lsp_position e.end_, diag_message e,
          some (to_lsp_severity e.level), some "tremor-language-server"⟩

/-- Modelled from the spec: the identifier-or-path character class of the
token extractor (§4.2, `lsp_utils::get_token` is outside the provided
sources): alphanumerics, underscore, and the path separator characters. -/
def is_token_char (c : Char) : Bool :=
  c.isAlphanum || c = '_' || c = ':'

/-- Modelled from the spec: the position/offset mapper (§2): the absolute
character offset of a zero-based (line, character) position in the text. -/
def to_offset (text : String) (pos : Position) : Nat :=
  ((text.splitOn "\n").take pos.line).foldl (fun acc l => acc + l.length + 1) 0
    + pos.character

/-- Modelled from the spec: `lsp_utils::get_token` (§4.2, outside the
provided sources): convert the position to an absolute offset, scan
backward from it while characters belong to the identifier-or-path class,
and return the resulting substring; an empty scan yields no token. -/
def get_token (text : String) (pos : Position) : Option String :=
  let before := text.data.take (to_offset text pos)
  let tok := (before.reverse.takeWhile is_token_char).reverse
  if tok.isEmpty then none else some (String.mk tok)

/-- Split a character list on the LAST occurrence of the `::` path
separator into the part before it and the part after it; `none` when the
separator does not occur (the semantics of `token.rsplitn(2, "::")`
followed by reading index 1 in `Backend::get_completions`). -/
def splitOnLastSep : List Char → Option (List Char × List Char)
  | [] => none
  | c :: rest =>
      match splitOnLastSep rest with
      | some (ns, mem) => some (c :: ns, mem)
      | none =>
          match c, rest with
          | ':', ':' :: rest2 => some ([], rest2)
          | _, _ => none

/-- Whether the `::` path separator occurs in a character list (the
semantics of `token.contains("::")` in `Backend::get_hover_content`). -/
def containsSep : List Char → Bool
  | [] => false
  | c :: rest =>
      match c, rest with
      | ':', ':' :: _ => true
      | _, _ => containsSep rest

/-- The snippet placeholder for one argument: number and placeholder text
(`${n:arg}` in `Backend::get_completions`). -/
def placeholder (n : Nat) (arg : String) : String :=
  "$\x7b" ++ toString n ++ ":" ++ arg ++ "\x7d"

/-- The list of snippet placeholders for an argument list, numbered from 1
in declaration order. -/
def placeholder_list (args : List String) : List String :=
  args.enum.map fun p => placeholder (p.1 + 1) p.2

/-- The joined argument snippet of `Backend::get_completions`. -/
def args_snippet (args : List String) : String :=
  String.intercalate ", " (placeholder_list args)

/-- Modelled from the spec: the rendered signature used as a completion's
detail (`FunctionSignature`'s display rendering lives in the repository's
`language` module, outside the provided sources): the full name followed
by the parenthesized, comma-separated argument names. -/
def FunctionSignature.render (sig : FunctionSignature) : String :=
  sig.full_name ++ "(" ++ String.intercalate ", " sig.args ++ ")"

/-- Modelled from the spec: the rendered documentation block used by hover
(`FunctionDoc`'s display rendering is outside the provided sources): the
rendered signature followed by the markdown description. -/
def FunctionDoc.render (d : FunctionDoc) : String :=
  d.signature.render ++ "\n\n" ++ d.description

/-- The candidate built for one member name in `Backend::get_completions`
(the body of the closure mapped over `functions`): enriched from
`function_doc` when documentation exists, bare otherwise. -/
def completion_item_for (lang : Language) (module_name function_name : String) :
    CompletionItem :=
  match lang.function_doc (module_name ++ "::" ++ function_name) with
  | some function_doc =>
      ⟨function_name, some CompletionItemKind.function,
        some function_doc.signature.render,
        some ⟨MarkupKind.markdown, function_doc.description⟩,
        some (function_name ++ "(" ++
          args_snippet function_doc.signature.args ++ ")"),
        some InsertTextFormat.snippet⟩
  | none =>
      ⟨function_name, some CompletionItemKind.function,
        none, none, none, some InsertTextFormat.snippet⟩

/-- `Backend::get_completions`: extract the token, split it on the last
path separator; with a namespace part, map every member returned by
`functions` to a candidate; otherwise the empty list. -/
def get_completions (lang : Language) (text : String) (position : Position) :
    List CompletionItem :=
  match get_token text position with
  | some token =>
      match splitOnLastSep token.data with
      | some (moduleChars, _) =>
          (lang.functions (String.mk moduleChars)).map
            (completion_item_for lang (String.mk moduleChars))
      | none => []
  | none => []

/-- `Backend::get_hover_content`: extract the token; when its raw text
contains the path separator, look up `function_doc` on the full token and
render it; otherwise no hover. -/
def get_hover_content (lang : Language) (text : String) (position : Position) :
    Option MarkupContent :=
  match get_token text position with
  | some token =>
      if containsSep token.data then
        match lang.function_doc token with
        | some function_doc =>
            some ⟨MarkupKind.markdown, function_doc.render⟩
        | none => none
      else none
  | none => none

/-- A publish-diagnostics notification sent to the client. -/
structure PublishDiagnostics where
  uri : String
  diagnostics : List Diagnostic
deriving DecidableEq, Repr

/-- One content change of a change event (full replacement text). -/
structure ContentChange where
  text : String
deriving DecidableEq, Repr

/-- A hover response. -/
structure Hover where
  contents : MarkupContent
deriving DecidableEq, Repr

/-- `Backend::did_change`: reads `content_changes[0]` (an unguarded index:
`none` models the panic on an empty list), replaces the stored text with
it wholesale, and publishes diagnostics computed from it. -/
def did_change (lang : Language) (st : State) (uri : String)
    (content_changes : List ContentChange) :
    Option (State × PublishDiagnostics) :=
  match content_changes with
  | [] => none
  | c :: _ =>
      some (update st uri c.text, ⟨uri, get_diagnostics lang c.text⟩)

/-- `Backend::did_close`: publishes an empty diagnostics list for the uri
and leaves the store untouched. -/
def did_close (st : State) (uri : String) : State × PublishDiagnostics :=
  (st, ⟨uri, []⟩)

/-- `Backend::did_open`: converts the uri to a file path and reads the
text from the file system (the event's own text is ignored); on success
the store is updated and diagnostics published, otherwise nothing happens.
`to_file_path` and `read_to_string` are the external collaborators. -/
def did_open (lang : Language) (to_file_path : String → Option String)
    (read_to_string : String → Option String) (st : State) (uri : String)
    (event_text : String) : State × Option PublishDiagnostics :=
  match to_file_path uri with
  | none => (st, none)
  | some path =>
      match read_to_string path with
      | none => (st, none)
      | some text =>
          (update st uri text, some ⟨uri, get_diagnostics lang text⟩)

/-- `Backend::completion`: looks the document up in the store and unwraps
the result (`none` models the panic of the `.unwrap()` on a missing
entry), then runs the completion pipeline on the stored text. -/
def completion (lang : Language) (st : State) (uri : String)
    (pos : Position) : Option (List CompletionItem) :=
  match State.get st uri with
  | none => none
  | some doc => some (get_completions lang doc.text pos)

/-- `Backend::hover`: looks the document up in the store and unwraps the
result (`none` models the panic of the `.unwrap()` on a missing entry),
then runs the hover pipeline on the stored text. -/
def hover (lang : Language) (st : State) (uri : String) (pos : Position) :
    Option (Option Hover) :=
  match State.get st uri with
  | none => none
  | some doc =>
      some ((get_hover_content lang doc.text pos).map fun c => ⟨c⟩)

/-- A language capability with no errors, no members and no docs, used to
instantiate universally quantified theorems at concrete inputs. -/
def emptyLanguage : Language :=
  ⟨fun _ => none, fun _ => [], fun _ => none⟩

/-- A language capability whose member listing is non-empty for every
namespace, used to instantiate quantified theorems at concrete inputs. -/
def oneFunLanguage : Language :=
  ⟨fun _ => none, fun _ => ["snot"], fun _ => none⟩

/-- A language capability with namespace `mod` holding two fully
documented members, used to instantiate quantified theorems. -/
def docLanguage : Language :=
  ⟨fun _ => none,
   fun ns => if ns = "mod" then ["f", "g"] else [],
   fun name =>
     if name = "mod::f" then some ⟨⟨"mod::f", ["a", "b"]⟩, "doc of f"⟩
     else if name = "mod::g" then some ⟨⟨"mod::g", []⟩, "doc of g"⟩
     else none⟩

/-- A language capability with namespace `mod` holding one documented and
one undocumented member, used to instantiate quantified theorems. -/
def mixedLanguage : Language :=
  ⟨fun _ => none,
   fun ns => if ns = "mod" then ["f", "nodoc"] else [],
   fun name =>
     if name = "mod::f" then some ⟨⟨"mod::f", ["a"]⟩, "doc of f"⟩
     else none⟩

/-- A language capability holding a doc entry for the bare, unqualified
name `bar`, used to instantiate quantified theorems. -/
def bareDocLanguage : Language :=
  ⟨fun _ => none, fun _ => [],
   fun name => if name = "bar" then some ⟨⟨"bar", []⟩, "bare doc"⟩ else none⟩

/-- A language capability whose parse always reports two raw errors, the
first carrying a hint, used to instantiate quantified theorems. -/
def errLanguage : Language :=
  ⟨fun _ => some
      [⟨⟨0, 0⟩, ⟨0, 1⟩, "bad token", some "remove it", ErrorLevel.error⟩,
       ⟨⟨1, 0⟩, ⟨1, 2⟩, "oops", none, ErrorLevel.warning⟩],
   fun _ => [], fun _ => none⟩

/-- Lookup after insertion finds the inserted state. -/
theorem State.get_insert (st : State) (uri : String) (d : DocumentState) :
    State.get (State.insert st uri d) uri = some d := by
  induction st with
  | nil => simp [State.insert, State.get]
  | cons kv rest ih =>
      obtain ⟨k, v⟩ := kv
      by_cases hk : k = uri
      · simp [State.insert, State.get, hk]
      · simp [State.insert, State.get, hk, ih]

/-- The placeholder list has one entry per declared argument. -/
theorem placeholder_list_length (args : List String) :
    (placeholder_list args).length = args.length := by
  simp [placeholder_list]

/-- The j-th entry of the placeholder list is the placeholder numbered
j + 1 holding the j-th argument name. -/
theorem placeholder_list_get (args : List String) (j : Nat)
    (hj : j < args.length) :
    ∃ hj2 : j < (placeholder_list args).length,
      (placeholder_list args).get ⟨j, hj2⟩ =
        placeholder (j + 1) (args.get ⟨j, hj⟩) := by
  refine ⟨by simpa [placeholder_list_length] using hj, ?_⟩
  simp [placeholder_list]

/-- A rendered signature is never the empty string. -/
theorem render_ne_empty (sig : FunctionSignature) : sig.render ≠ "" := by
  intro h
  have hlen := congrArg String.length h
  simp [FunctionSignature.render, String.length_append] at hlen
  exact absurd hlen.1.1.2 (by decide)

/-- The diagnostic message of an error without a hint is the callout. -/
theorem diag_message_none (e : RawError) (h : e.hint = none) :
    diag_message e = e.callout := by
  simp [diag_message, h]

/-- The diagnostic message of an error with a hint is the callout followed
by the delimited trailing note. -/
theorem diag_message_some (e : RawError) (hint : String)
    (h : e.hint = some hint) :
    diag_message e = e.callout ++ ", Note: " ++ hint := by
  simp [diag_message, h]

/-- The documented-member candidate, spelled out. -/
theorem completion_item_for_some (lang : Language) (module_name m : String)
    (d : FunctionDoc)
    (h : lang.function_doc (module_name ++ "::" ++ m) = some d) :
    completion_item_for lang module_name m =
      ⟨m, some CompletionItemKind.function, some d.signature.render,
        some ⟨MarkupKind.markdown, d.description⟩,
        some (m ++ "(" ++ args_snippet d.signature.args ++ ")"),
        some InsertTextFormat.snippet⟩ := by
  simp [completion_item_for, h]

/-- The undocumented-member candidate, spelled out. -/
theorem completion_item_for_none (lang : Language) (module_name m : String)
    (h : lang.function_doc (module_name ++ "::" ++ m) = none) :
    completion_item_for lang module_name m =
      ⟨m, some CompletionItemKind.function,
        none, none, none, some InsertTextFormat.snippet⟩ := by
  simp [completion_item_for, h]

/-- With an extracted token whose split has a namespace part, the
completion pipeline is the member-wise map of `completion_item_for`. -/
theorem get_completions_eq (lang : Language) (text : String) (pos : Position)
    (token : String) (ns mem : List Char)
    (h1 : get_token text pos = some token)
    (h2 : splitOnLastSep token.data = some (ns, mem)) :
    get_completions lang text pos =
      (lang.functions (String.mk ns)).map
        (completion_item_for lang (String.mk ns)) := by
  simp [get_completions, h1, h2]

/-- Claim C1: evaluation of the completion and hover handlers at the
failing input: with a document id absent from the store, the store lookup
is `none` and both handlers reach the `.unwrap()` panic (modelled as the
outer `none`) instead of surfacing a NotFound condition as an
empty/optional or error result. -/
theorem unknown_document_crashes_handlers :
    State.get ([] : State) "file:///a.tremor" = none ∧
    completion emptyLanguage [] "file:///a.tremor" ⟨0, 0⟩ = none ∧
    hover emptyLanguage [] "file:///a.tremor" ⟨0, 0⟩ = none :=
  ⟨rfl, rfl, rfl⟩

/-- Claim C2: when the extracted token has no namespace part (no path
separator occurs in it), the completion pipeline returns the empty list,
for every language capability. -/
theorem completions_empty_without_namespace (lang : Language) (text : String)
    (pos : Position) (token : String)
    (h1 : get_token text pos = some token)
    (h2 : splitOnLastSep token.data = none) :
    get_completions lang text pos = [] := by
  simp [get_completions, h1, h2]

/-- Witness for C2: on `"bar"` with the cursor at its end the extracted
token has no namespace part, and completions are empty even though the
language capability lists a member for every namespace. -/
theorem completions_empty_without_namespace_witness :
    get_completions oneFunLanguage "bar" ⟨0, 3⟩ = [] :=
  completions_empty_without_namespace oneFunLanguage "bar" ⟨0, 3⟩ "bar"
    (by rfl) (by rfl)

/-- Claim C3: for an extracted token splitting into a namespace whose
members all have documentation, the completion pipeline returns exactly
one candidate per member, in the order `functions` returns them, each with
the member's label, non-empty detail (the rendered signature), the
documentation description, and insertion text `member(...)` whose
parenthesized part holds exactly one placeholder per declared argument,
numbered from 1 in declaration order. -/
theorem completions_documented_members (lang : Language) (text : String)
    (pos : Position) (token : String) (ns mem : List Char)
    (h1 : get_token text pos = some token)
    (h2 : splitOnLastSep token.data = some (ns, mem))
    (h3 : ∀ m ∈ lang.functions (String.mk ns),
      (lang.function_doc (String.mk ns ++ "::" ++ m)).isSome) :
    (get_completions lang text pos).length
      = (lang.functions (String.mk ns)).length ∧
    ∀ i (hi : i < (lang.functions (String.mk ns)).length),
      ∃ d, lang.function_doc
          (String.mk ns ++ "::" ++ (lang.functions (String.mk ns)).get ⟨i, hi⟩)
          = some d ∧
        ∃ hi2 : i < (get_completions lang text pos).length,
          (get_completions lang text pos).get ⟨i, hi2⟩ =
            ⟨(lang.functions (String.mk ns)).get ⟨i, hi⟩,
              some CompletionItemKind.function,
              some d.signature.render,
              some ⟨MarkupKind.markdown, d.description⟩,
              some ((lang.functions (String.mk ns)).get ⟨i, hi⟩ ++ "(" ++
                args_snippet d.signature.args ++ ")"),
              some InsertTextFormat.snippet⟩ ∧
          d.signature.render ≠ "" ∧
          args_snippet d.signature.args
            = String.intercalate ", " (placeholder_list d.signature.args) ∧
          (placeholder_list d.signature.args).length
            = d.signature.args.length ∧
          ∀ j (hj : j < d.signature.args.length),
            ∃ hj2 : j < (placeholder_list d.signature.args).length,
              (placeholder_list d.signature.args).get ⟨j, hj2⟩ =
                placeholder (j + 1) (d.signature.args.get ⟨j, hj⟩) := by
  have hgc := get_completions_eq lang text pos token ns mem h1 h2
  constructor
  · rw [hgc, List.length_map]
  · intro i hi
    obtain ⟨d, hd⟩ := Option.isSome_iff_exists.mp
      (h3 _ (List.get_mem (lang.functions (String.mk ns)) i hi))
    refine ⟨d, hd, ?_⟩
    have hi2 : i < (get_completions lang text pos).length := by
      rw [hgc, List.length_map]; exact hi
    refine ⟨hi2, ?_, render_ne_empty d.signature, rfl,
      placeholder_list_length d.signature.args,
      placeholder_list_get d.signature.args⟩
    have hget : (get_completions lang text pos).get ⟨i, hi2⟩ =
        completion_item_for lang (String.mk ns)
          ((lang.functions (String.mk ns)).get ⟨i, hi⟩) := by
      simp only [List.get_eq_getElem]
      simp only [hgc]
      simp only [List.getElem_map]
    rw [hget]
    exact completion_item_for_some lang (String.mk ns)
      ((lang.functions (String.mk ns)).get ⟨i, hi⟩) d hd

/-- Witness for C3: in namespace `mod` of `docLanguage` both members are
documented; completions on `"mod::f"` at the end of the text return as
many candidates as `functions` lists. -/
theorem completions_documented_members_witness :
    (get_completions docLanguage "mod::f" ⟨0, 6⟩).length
      = (docLanguage.functions "mod").length :=
  (completions_documented_members docLanguage "mod::f" ⟨0, 6⟩ "mod::f"
    "mod".data "f".data (by rfl) (by rfl) (by decide)).1

/-- Claim C4: hover yields content exactly when the raw extracted token
contains the path separator and `function_doc` on the full, unsplit token
returns documentation; a separator-free token or absent documentation
yields no hover. -/
theorem hover_requires_separator_and_doc (lang : Language) (text : String)
    (pos : Position) :
    (∀ r, get_hover_content lang text pos = some r →
      ∃ token d, get_token text pos = some token ∧
        containsSep token.data = true ∧ lang.function_doc token = some d ∧
        r = ⟨MarkupKind.markdown, d.render⟩) ∧
    (∀ token, get_token text pos = some token →
      containsSep token.data = false →
      get_hover_content lang text pos = none) ∧
    (∀ token, get_token text pos = some token →
      lang.function_doc token = none →
      get_hover_content lang text pos = none) := by
  refine ⟨?_, ?_, ?_⟩
  · intro r hr
    rcases htok : get_token text pos with _ | token
    · simp [get_hover_content, htok] at hr
    · rcases hsep : containsSep token.data
      · simp [get_hover_content, htok, hsep] at hr
      · rcases hdoc : lang.function_doc token with _ | d
        · simp [get_hover_content, htok, hsep, hdoc] at hr
        · refine ⟨token, d, rfl, hsep, hdoc, ?_⟩
          have hv : get_hover_content lang text pos
              = some ⟨MarkupKind.markdown, d.render⟩ := by
            simp [get_hover_content, htok, hsep, hdoc]
          rw [hv] at hr
          exact (Option.some.inj hr).symm
  · intro token htok hsep
    simp [get_hover_content, htok, hsep]
  · intro token htok hdoc
    rcases hsep : containsSep token.data
    · simp [get_hover_content, htok, hsep]
    · simp [get_hover_content, htok, hsep, hdoc]

/-- Witness for C4: `bareDocLanguage` has an unqualified doc entry for
`bar`, yet hover on the separator-free token `bar` returns nothing. -/
theorem hover_requires_separator_and_doc_witness :
    get_hover_content bareDocLanguage "bar" ⟨0, 3⟩ = none :=
  (hover_requires_separator_and_doc bareDocLanguage "bar" ⟨0, 3⟩).2.1
    "bar" (by rfl) (by rfl)

/-- Claim C5: the diagnostics pipeline yields one record per raw error in
the same order; a record's message is the callout alone when the error has
no hint, and the callout followed by the delimited trailing note
`, Note: hint` when it has one; when `parse_errors` yields no value the
result is empty. -/
theorem diagnostics_one_per_error (lang : Language) (text : String) :
    (lang.parse_errors text = none → get_diagnostics lang text = []) ∧
    (∀ errs, lang.parse_errors text = some errs →
      (get_diagnostics lang text).length = errs.length ∧
      ∀ i (hi : i < errs.length),
        ∃ hi2 : i < (get_diagnostics lang text).length,
          ((get_diagnostics lang text).get ⟨i, hi2⟩).message
            = diag_message (errs.get ⟨i, hi⟩) ∧
          ((errs.get ⟨i, hi⟩).hint = none →
            diag_message (errs.get ⟨i, hi⟩) = (errs.get ⟨i, hi⟩).callout) ∧
          (∀ hint, (errs.get ⟨i, hi⟩).hint = some hint →
            diag_message (errs.get ⟨i, hi⟩)
              = (errs.get ⟨i, hi⟩).callout ++ ", Note: " ++ hint)) := by
  constructor
  · intro h
    simp [get_diagnostics, h]
  · intro errs herrs
    have hgd : get_diagnostics lang text = errs.map fun e =>
        ⟨to_lsp_position e.start, to_lsp_position e.end_, diag_message e,
          some (to_lsp_severity e.level), some "tremor-language-server"⟩ := by
      simp [get_diagnostics, herrs]
    constructor
    · rw [hgd, List.length_map]
    · intro i hi
      have hi2 : i < (get_diagnostics lang text).length := by
        rw [hgd, List.length_map]; exact hi
      refine ⟨hi2, ?_, ?_, ?_⟩
      · have hget : (get_diagnostics lang text).get ⟨i, hi2⟩ =
            (⟨to_lsp_position (errs.get ⟨i, hi⟩).start,
              to_lsp_position (errs.get ⟨i, hi⟩).end_,
              diag_message (errs.get ⟨i, hi⟩),
              some (to_lsp_severity (errs.get ⟨i, hi⟩).level),
              some "tremor-language-server"⟩ : Diagnostic) := by
          simp only [List.get_eq_getElem]
          simp only [hgd]
          simp only [List.getElem_map]
        rw [hget]
      · intro hnone
        exact diag_message_none _ hnone
      · intro hint hhint
        exact diag_message_some _ hint hhint

/-- Witness for C5: `errLanguage` reports two raw errors on any text, so
the diagnostics list has length two. -/
theorem diagnostics_one_per_error_witness :
    (get_diagnostics errLanguage "let x = ;").length = 2 :=
  ((diagnostics_one_per_error errLanguage "let x = ;").2 _ rfl).1

/-- Claim C6: opening a document with text `a` and then updating it with
text `b` leaves `b` as the stored text for the id — open and update are
the same insert-or-overwrite operation, with no merging. -/
theorem store_open_update_get (st : State) (id a b : String) :
    State.get (update (update st id a) id b) id = some ⟨b⟩ :=
  State.get_insert (update st id a) id ⟨b⟩

/-- Claim C7: closing a document publishes an empty diagnostics list for
its id and leaves the document state store unchanged. -/
theorem close_preserves_store (st : State) (uri : String) :
    (did_close st uri).1 = st ∧ (did_close st uri).2 = ⟨uri, []⟩ :=
  ⟨rfl, rfl⟩

/-- Claim C8: a member whose `function_doc` lookup yields no documentation
still produces a candidate carrying its label, with no detail, no
documentation and no insertion text. -/
theorem completions_undocumented_member (lang : Language) (text : String)
    (pos : Position) (token : String) (ns mem : List Char) (i : Nat)
    (h1 : get_token text pos = some token)
    (h2 : splitOnLastSep token.data = some (ns, mem))
    (hi : i < (lang.functions (String.mk ns)).length)
    (h3 : lang.function_doc (String.mk ns ++ "::" ++
      (lang.functions (String.mk ns)).get ⟨i, hi⟩) = none) :
    ∃ hi2 : i < (get_completions lang text pos).length,
      (get_completions lang text pos).get ⟨i, hi2⟩ =
        ⟨(lang.functions (String.mk ns)).get ⟨i, hi⟩,
          some CompletionItemKind.function,
          none, none, none, some InsertTextFormat.snippet⟩ := by
  have hgc := get_completions_eq lang text pos token ns mem h1 h2
  have hi2 : i < (get_completions lang text pos).length := by
    rw [hgc, List.length_map]; exact hi
  refine ⟨hi2, ?_⟩
  have hget : (get_completions lang text pos).get ⟨i, hi2⟩ =
      completion_item_for lang (String.mk ns)
        ((lang.functions (String.mk ns)).get ⟨i, hi⟩) := by
    simp only [List.get_eq_getElem]
    simp only [hgc]
    simp only [List.getElem_map]
  rw [hget]
  exact completion_item_for_none lang (String.mk ns)
    ((lang.functions (String.mk ns)).get ⟨i, hi⟩) h3

/-- Witness for C8: in `mixedLanguage` the member `nodoc` of `mod` has no
documentation, and its candidate carries only the label. -/
theorem completions_undocumented_member_witness :
    ∃ hi2 : 1 < (get_completions mixedLanguage "mod::f" ⟨0, 6⟩).length,
      (get_completions mixedLanguage "mod::f" ⟨0, 6⟩).get ⟨1, hi2⟩ =
        ⟨"nodoc", some CompletionItemKind.function,
          none, none, none, some InsertTextFormat.snippet⟩ :=
  completions_undocumented_member mixedLanguage "mod::f" ⟨0, 6⟩ "mod::f"
    "mod".data "f".data 1 (by rfl) (by rfl) (by decide) (by rfl)

/-- Claim C9: the change handler reads only the head of the content
changes and replaces the stored text with it wholesale; on an empty
content-change list the unguarded index panics (modelled as `none`). -/
theorem change_uses_first_content_change (lang : Language) (st : State)
    (uri : String) :
    did_change lang st uri [] = none ∧
    ∀ c cs, did_change lang st uri (c :: cs)
      = some (update st uri c.text, ⟨uri, get_diagnostics lang c.text⟩) :=
  ⟨rfl, fun _ _ => rfl⟩

/-- Claim C10: the open handler ignores the event's text and reads from
the file system; when the id has no file path or the read fails, the store
is unchanged and no diagnostics are published; otherwise the file's text
is stored and diagnostics published from it. -/
theorem open_reads_from_file_system (lang : Language)
    (to_file_path read_to_string : String → Option String) (st : State)
    (uri : String) (t t' : String) :
    (did_open lang to_file_path read_to_string st uri t
      = did_open lang to_file_path read_to_string st uri t') ∧
    (to_file_path uri = none →
      did_open lang to_file_path read_to_string st uri t = (st, none)) ∧
    (∀ path, to_file_path uri = some path → read_to_string path = none →
      did_open lang to_file_path read_to_string st uri t = (st, none)) ∧
    (∀ path text, to_file_path uri = some path →
      read_to_string path = some text →
      did_open lang to_file_path read_to_string st uri t
        = (update st uri text, some ⟨uri, get_diagnostics lang text⟩)) := by
  refine ⟨rfl, ?_, ?_, ?_⟩
  · intro h
    simp [did_open, h]
  · intro path hp hr
    simp [did_open, hp, hr]
  · intro path text hp hr
    simp [did_open, hp, hr]

/-- Witness for C10: with an id that converts to no file path, opening is
a silent no-op on an empty store. -/
theorem open_reads_from_file_system_witness :
    did_open emptyLanguage (fun _ => none) (fun _ => none) ([] : State)
      "untitled:1" "ignored text" = (([] : State), none) :=
  (open_reads_from_file_system emptyLanguage (fun _ => none) (fun _ => none)
    ([] : State) "untitled:1" "ignored text" "other").2.1 rfl

end Tremor
